import Mathlib

/-!
Verification of the conversation-termination heuristic (`ConversationAnalyzer`)
and the bot-to-bot interaction loop (`Chatbot.interact` / `Chatbot.chat`) of the
`selfplay` repository, as a shallow embedding in Lean 4.

Modelling conventions:
* Python floats are modelled by exact rationals `ℚ` (all constants in the source
  are short decimals, so every score computation is exact decimal arithmetic).
* Python strings are Lean `String`s; `str.lower()` is modelled by mapping
  `Char.toLower` (the source's phrase matching is ASCII-only).
* A Python `IndexError` (reachable in `_detect_resolution` on an empty window)
  is modelled by `Option`: `none` means the call raises.
* `re.search` is only used in the source with patterns that are alternations of
  string literals (no quantifiers or classes), so each one is embedded as
  "some literal of the expansion is a substring".
-/

/- Batteries marks rational multiplication and inversion `@[irreducible]`,
which blocks evaluation of concrete scores; restore reducibility for this
development so concrete transcripts can be checked by `decide`/`rfl`. -/
attribute [local semireducible] Rat.add Rat.sub Rat.mul Rat.inv Rat.ofScientific

/-- A transcript turn `(bot_name, message, response)` as built by
`Chatbot.interact` and consumed by `ConversationAnalyzer`. -/
abbrev Turn := String × String × String

/-- The conversation history: an ordered list of turns. -/
abbrev Transcript := List Turn

/-- Python `s.lower()` on ASCII text. -/
def lowerStr (s : String) : String := String.mk (s.toList.map Char.toLower)

/-- Executable infix test on lists: `needle` occurs contiguously in `hay`. -/
def isInfixL (needle : List Char) : List Char → Bool
  | [] => needle.isPrefixOf []
  | c :: rest => needle.isPrefixOf (c :: rest) || isInfixL needle rest

/-- Python `needle in hay` (substring containment). -/
def containsSub (hay needle : String) : Bool :=
  isInfixL needle.toList hay.toList

/-- `re.search` for a pattern that is an alternation of literals: some
literal occurs in the message. -/
def anyPhrase (phrases : List String) (msg : String) : Bool :=
  phrases.any (fun p => containsSub msg p)

/-- Worker for Python `text.split()`: collect the maximal whitespace-free
runs; `acc` holds the current run, reversed. -/
def wordsAux : List Char → List Char → List (List Char)
  | [], acc => if acc.isEmpty then [] else [acc.reverse]
  | c :: cs, acc =>
    if c.isWhitespace then
      if acc.isEmpty then wordsAux cs [] else acc.reverse :: wordsAux cs []
    else wordsAux cs (c :: acc)

/-- Python `text.split()`: maximal whitespace-free runs. -/
def splitWords (s : String) : List String :=
  (wordsAux s.toList []).map String.mk

/-- `len(text.split())`. -/
def wordCount (s : String) : Nat := (splitWords s).length

/-- Python `xs[-k:]`. -/
def lastK (k : Nat) (xs : List α) : List α := xs.drop (xs.length - k)

/-- Python `min(a, b)` on two floats: the first argument when `a <= b`.
(Stated explicitly so that concrete scores evaluate by kernel reduction.) -/
def minQ (a b : ℚ) : ℚ := if a ≤ b then a else b

/-- The characters of Python's `string.punctuation`. -/
def punctuationChars : List Char :=
  "!\"#$%&\x27()*+,-./:;<=>?@[\\]^_\x60\x7b|\x7d~".toList

/-- `ConversationAnalyzer._normalize_text`: lowercase, then delete every
`string.punctuation` character. -/
def normalizeText (text : String) : String :=
  String.mk (((lowerStr text).toList.filter (fun c => ¬ punctuationChars.contains c)))

/-- `get_ngrams` inside `_calculate_text_similarity`: the word `n`-grams of
`text`, joined by single spaces.  Python's `range(len(words)-n+1)` is empty
when `len(words) < n`; `Nat` truncated subtraction in `length + 1 - n`
reproduces this. -/
def getNgrams (text : String) (n : Nat) : List String :=
  let words := splitWords text
  (List.range (words.length + 1 - n)).map
    (fun i => String.intercalate " " ((words.drop i).take n))

/-- The `jaccard` helper of `_calculate_text_similarity`: 0 when either set is
empty, otherwise `|s1 ∩ s2| / |s1 ∪ s2|` (guarded by `union > 0`). -/
def jaccard (s1 s2 : Finset String) : ℚ :=
  if s1 = ∅ ∨ s2 = ∅ then 0
  else if 0 < (s1 ∪ s2).card then ((s1 ∩ s2).card : ℚ) / ((s1 ∪ s2).card : ℚ)
  else 0

/-- `ConversationAnalyzer._calculate_text_similarity`: bigram and trigram
Jaccard overlap, weighted 0.4 / 0.6. -/
def calculateTextSimilarity (text1 text2 : String) : ℚ :=
  let bigrams1 := (getNgrams text1 2).toFinset
  let bigrams2 := (getNgrams text2 2).toFinset
  let trigrams1 := (getNgrams text1 3).toFinset
  let trigrams2 := (getNgrams text2 3).toFinset
  jaccard bigrams1 bigrams2 * (4/10) + jaccard trigrams1 trigrams2 * (6/10)

/-- All unordered pairs `(xs[i], xs[j])` with `i < j`, in the order the
source's double loop visits them. -/
def pairwise : List α → List (α × α)
  | [] => []
  | x :: xs => xs.map (fun y => (x, y)) ++ pairwise xs

/-- The `farewell_phrases` list set up in `ConversationAnalyzer.__init__`. -/
def farewellPhrasesList : List String :=
  [ "goodbye", "bye", "thank you for your help", "that\x27s all",
    "have a good day", "thanks for your assistance", "thanks for your help",
    "thank you for the information", "i appreciate your help",
    "that answers my question", "that\x27s what i needed to know",
    "i have no more questions", "that\x27s it for now", "until next time",
    "have a nice day", "take care", "farewell", "see you later",
    "thanks again", "this has been helpful", "this was helpful",
    "conversation has reached its conclusion", "reached its logical conclusion",
    "conversation has ended", "end of this conversation",
    "ready for your next instruction", "ready for the next query",
    "standing by", "standing by to assist", "wait for genuine human input",
    "wait for your next question", "ready to move on",
    "this exchange is complete", "this interaction has concluded",
    "unusual situation", "unusual exchange", "unusual interaction",
    "unusual circumstance", "reached an impasse", "conversation loop",
    "break this pattern", "break this loop",
    "thank you", "thanks", "appreciate", "grateful" ]

/-- The analyzer's construction-time state: `end_threshold` plus the phrase
list stored on the instance by `__init__`. -/
structure Analyzer where
  endThreshold : ℚ
  farewellPhrases : List String

/-- `ConversationAnalyzer(end_threshold)`. -/
def mkAnalyzer (endThreshold : ℚ) : Analyzer :=
  ⟨endThreshold, farewellPhrasesList⟩

/-- Expansion of `re.search(r'thank(s| you)|appreciate|grateful', m)`. -/
def gratitudePhrases : List String := ["thanks", "thank you", "appreciate", "grateful"]

/-- Expansion of
`re.search(r'that\x27s (all|it)|no (more|other) questions|conclude|conclusion|end|finish', m)`. -/
def closurePhrases : List String :=
  [ "that\x27s all", "that\x27s it", "no more questions", "no other questions",
    "conclude", "conclusion", "end", "finish" ]

/-- Expansion of `re.search(r'(wait|ready) for (your|the next|human|genuine)', m)`. -/
def waitingForPhrases : List String :=
  [ "wait for your", "wait for the next", "wait for human", "wait for genuine",
    "ready for your", "ready for the next", "ready for human", "ready for genuine" ]

/-- Expansion of
`re.search(r'(unusual|strange|peculiar) (situation|exchange|interaction|circumstance)', m)`. -/
def unusualStatePhrases : List String :=
  [ "unusual situation", "unusual exchange", "unusual interaction", "unusual circumstance",
    "strange situation", "strange exchange", "strange interaction", "strange circumstance",
    "peculiar situation", "peculiar exchange", "peculiar interaction", "peculiar circumstance" ]

/-- Per-message score accumulated by the loop body of `_detect_farewells`. -/
def farewellMsgScore (phrases : List String) (message : String) : ℚ :=
  let m := lowerStr message
  ((phrases.filter (fun p => containsSub m p)).length : ℚ) * (5/10)
  + (if anyPhrase gratitudePhrases m then 3/10 else 0)
  + (if anyPhrase closurePhrases m then 4/10 else 0)
  + (if anyPhrase waitingForPhrases m then 5/10 else 0)
  + (if anyPhrase unusualStatePhrases m then 3/10 else 0)

/-- `ConversationAnalyzer._detect_farewells`: sum the per-message increments
over the window, capped at 1. -/
def detectFarewells (a : Analyzer) (recentMessages : List Turn) : ℚ :=
  minQ ((recentMessages.map (fun t => farewellMsgScore a.farewellPhrases t.2.2)).sum) 1

/-- `ConversationAnalyzer._detect_repetition`. -/
def detectRepetition (conversationHistory : Transcript) : ℚ :=
  if conversationHistory.length < 4 then 0
  else
    let lastMessages := (lastK 4 conversationHistory).map (fun t => normalizeText t.2.2)
    if lastMessages.dedup.length < lastMessages.length then 1
    else
      let similarityScores :=
        (pairwise lastMessages).map (fun p => calculateTextSimilarity p.1 p.2)
      if similarityScores ≠ [] then
        let avgSimilarity := similarityScores.sum / (similarityScores.length : ℚ)
        if avgSimilarity > 7/10 then (avgSimilarity - 7/10) * (333/100) else 0
      else 0

/-- The `resolution_phrases` local list of `_detect_resolution`. -/
def resolutionPhrases : List String :=
  [ "hope that helps", "hope this helps", "hope that answered",
    "hope this answered", "that should address", "that covers",
    "as requested", "as you asked", "as mentioned" ]

/-- Expansion of `re.search(r'in summary|to summarize|in conclusion|to recap', m)`. -/
def summaryPhrases : List String :=
  ["in summary", "to summarize", "in conclusion", "to recap"]

/-- `ConversationAnalyzer._detect_resolution`.  The source reads
`recent_messages[-1]`, which raises `IndexError` on an empty window — that
exception is the `none` case. -/
def detectResolution (recentMessages : List Turn) : Option ℚ :=
  match recentMessages.getLast? with
  | none => none
  | some t =>
    let lastMessage := t.2.2
    let lastMessageLower := lowerStr lastMessage
    if containsSub lastMessage "?" then some 0
    else
      let score : ℚ :=
        ((resolutionPhrases.filter (fun p => containsSub lastMessageLower p)).length : ℚ) * (3/10)
        + (if anyPhrase summaryPhrases lastMessageLower then 4/10 else 0)
        + (if wordCount lastMessage < 20 then 2/10 else 0)
      some (minQ score 1)

/-- The `meta_keywords` local list of `_detect_meta_conversation`. -/
def metaKeywords : List String :=
  [ "conversation", "exchange", "interaction", "discussion",
    "conclude", "conclusion", "end", "finished", "complete",
    "impasse", "loop", "pattern", "test", "scenario" ]

/-- Expansion of `re.search(r'(this|the) conversation (has|is|seems|appears)', m)`. -/
def conversationStatePhrases : List String :=
  [ "this conversation has", "this conversation is",
    "this conversation seems", "this conversation appears",
    "the conversation has", "the conversation is",
    "the conversation seems", "the conversation appears" ]

/-- Expansion of `re.search(r'(both|two|we are) (ai|assistant|claude)', m)`. -/
def bothAiPhrases : List String :=
  [ "both ai", "both assistant", "both claude",
    "two ai", "two assistant", "two claude",
    "we are ai", "we are assistant", "we are claude" ]

/-- Per-message score accumulated by the loop body of `_detect_meta_conversation`. -/
def metaMsgScore (message : String) : ℚ :=
  let m := lowerStr message
  let keywordCount := (metaKeywords.filter (fun k => containsSub m k)).length
  (if 2 ≤ keywordCount then 4/10 else 0)
  + (if anyPhrase conversationStatePhrases m then 5/10 else 0)
  + (if anyPhrase bothAiPhrases m then 6/10 else 0)

/-- `ConversationAnalyzer._detect_meta_conversation`. -/
def detectMetaConversation (messages : List Turn) : ℚ :=
  minQ ((messages.map (fun t => metaMsgScore t.2.2)).sum) 1

/-- Expansion of
`re.search(r'(wait|ready|standing by) for (your|the next|human|genuine|new)', m)`. -/
def waitingIndicatorPhrases : List String :=
  (["wait", "ready", "standing by"].flatMap (fun a =>
    ["your", "the next", "human", "genuine", "new"].map (fun b => a ++ " for " ++ b)))

/-- Expansion of
`re.search(r'(need|require|wait for) (human|user|new|next) (input|query|question|instruction)', m)`. -/
def externalInputPhrases : List String :=
  (["need", "require", "wait for"].flatMap (fun a =>
    ["human", "user", "new", "next"].flatMap (fun b =>
      ["input", "query", "question", "instruction"].map
        (fun c => a ++ " " ++ b ++ " " ++ c))))

/-- Per-message indicator count in `_detect_waiting_pattern`. -/
def waitingMsgIndicators (message : String) : Nat :=
  let m := lowerStr message
  (if anyPhrase waitingIndicatorPhrases m then 1 else 0)
  + (if anyPhrase externalInputPhrases m then 1 else 0)

/-- `ConversationAnalyzer._detect_waiting_pattern`. -/
def detectWaitingPattern (messages : List Turn) : ℚ :=
  let waitingIndicators := (messages.map (fun t => waitingMsgIndicators t.2.2)).sum
  if 2 ≤ waitingIndicators then 8/10
  else if waitingIndicators = 1 then 4/10
  else 0

/-- `ConversationAnalyzer._determine_primary_reason`: Python's `max` over the
dict items keeps the first maximal entry (a later entry replaces the current
best only when strictly greater). -/
def determinePrimaryReason (farewellScore repetitionScore resolutionScore
    metaConversationScore waitingPatternScore : ℚ) : String :=
  let scores : List (String × ℚ) :=
    [ ("Farewell detected", farewellScore),
      ("Repetitive conversation", repetitionScore),
      ("Topic resolved", resolutionScore),
      ("Meta-conversation about ending", metaConversationScore),
      ("Both participants waiting for input", waitingPatternScore) ]
  let primaryReason :=
    scores.foldl (fun best cur => if best.2 < cur.2 then cur else best)
      ("Farewell detected", farewellScore)
  if 3/10 < primaryReason.2 then primaryReason.1 else "Multiple factors"

/-- `ConversationAnalyzer.detect_end_signals`.  Returns `none` when the Python
code would raise (`IndexError` from `_detect_resolution` on an empty history
once past the warm-up guard). -/
def detectEndSignals (a : Analyzer) (conversationHistory : Transcript)
    (currentTurn : Nat) : Option (Bool × ℚ × String) :=
  if currentTurn < 2 then some (false, 0, "Too early in conversation")
  else
    let recentMessages := lastK 2 conversationHistory
    let extendedContext :=
      if 4 ≤ conversationHistory.length then lastK 4 conversationHistory
      else conversationHistory
    let farewellScore := detectFarewells a recentMessages
    let repetitionScore := detectRepetition conversationHistory
    match detectResolution recentMessages with
    | none => none
    | some resolutionScore =>
      let metaConversationScore := detectMetaConversation extendedContext
      let waitingPatternScore := detectWaitingPattern extendedContext
      let combinedScore :=
        farewellScore * (3/10) + repetitionScore * (2/10) + resolutionScore * (2/10)
        + metaConversationScore * (2/10) + waitingPatternScore * (1/10)
      let reason := determinePrimaryReason farewellScore repetitionScore
        resolutionScore metaConversationScore waitingPatternScore
      let shouldEnd : Bool := a.endThreshold ≤ combinedScore
      some (shouldEnd, combinedScore, reason)

/-- State-passing view of a `detect_end_signals` call: the method body contains
no assignment to `self` fields and no mutation of the history list (every
statement is a read), so its state-passing translation returns the analyzer
and the transcript unchanged alongside the result. -/
def detectEndSignalsCall (a : Analyzer) (conversationHistory : Transcript)
    (currentTurn : Nat) : Analyzer × Transcript × Option (Bool × ℚ × String) :=
  (a, conversationHistory, detectEndSignals a conversationHistory currentTurn)

/-!
Embedding of `Chatbot.chat` and `Chatbot.interact` (the interaction loop).

The provider boundary (`provider.generate_response`, including the JSON
content-extraction normalization applied to the raw provider text, which
spec section 1 places outside the core) is modelled as a single capability
`generate : messages → Except error text`; `Except.error` models an exception
raised by the call, which `Chatbot.chat` catches and converts to the string
`"An error occurred: " ++ e`.
-/

/-- A memory entry `{"role": r, "content": c}`. -/
abbrev MemEntry := String × String

/-- A chatbot: `name`, `sys_msg`, accumulated `memory`, and the provider
capability. -/
structure ChatBot where
  name : String
  sysMsg : String
  memory : List MemEntry
  generate : List MemEntry → Except String String

/-- `Chatbot._construct_messages` with `use_memory=True`: the system message
followed by the full memory (which already holds the new user message). -/
def constructMessages (bot : ChatBot) : List MemEntry :=
  ("system", bot.sysMsg) :: bot.memory

/-- `Chatbot.chat` (with `use_memory=True`): append the user message to
memory, call the provider; on success append the response to memory and
return it, on an exception return `"An error occurred: " ++ e` (the user
message stays in memory, the failed response is not added). -/
def chat (bot : ChatBot) (userMsg : String) : ChatBot × String :=
  let bot1 := { bot with memory := bot.memory ++ [("user", userMsg)] }
  match bot1.generate (constructMessages bot1) with
  | Except.ok responseMsg =>
      ({ bot1 with memory := bot1.memory ++ [("assistant", responseMsg)] }, responseMsg)
  | Except.error e => (bot1, "An error occurred: " ++ e)

/-- The auto-end check `analyzer.detect_end_signals(history, turn)[0]` made by
`interact`; the analyzer is constructed with the default threshold 0.6.
(The `none` case models the analyzer raising, which cannot occur at a call
site of the loop since the history there is never empty; `interact` would
propagate such an exception, and no theorem below depends on this arm.) -/
def shouldEndAt (hist : Transcript) (turn : Nat) : Bool :=
  match detectEndSignals (mkAnalyzer (6/10)) hist turn with
  | some (shouldEnd, _, _) => shouldEnd
  | none => false

/-- The body of `interact`'s `for turn in range(1, actual_max_turns)` loop.
`fuel` is the number of remaining iterations, `turn` the Python loop
variable.  Each iteration: optional auto-end check (only for `turn > 1`),
second bot's response appended, optional auto-end check, first bot's
response appended. -/
def interactLoop : Nat → Nat → ChatBot → ChatBot → Transcript → String → Bool →
    ChatBot × ChatBot × Transcript
  | 0, _, firstBot, secondBot, hist, _, _ => (firstBot, secondBot, hist)
  | fuel + 1, turn, firstBot, secondBot, hist, response, autoEnd =>
    if autoEnd && decide (1 < turn) && shouldEndAt hist turn then
      (firstBot, secondBot, hist)
    else
      let c1 := chat secondBot response
      let hist1 := hist ++ [(c1.1.name, response, c1.2)]
      if autoEnd && shouldEndAt hist1 turn then
        (firstBot, c1.1, hist1)
      else
        let c2 := chat firstBot c1.2
        let hist2 := hist1 ++ [(c2.1.name, c1.2, c2.2)]
        interactLoop fuel (turn + 1) c2.1 c1.1 hist2 c2.2 autoEnd

/-- `Chatbot.interact`: the first bot answers `start` unconditionally (turn 1),
then the loop runs for `turn = 1 .. actual_max_turns - 1`, where
`actual_max_turns` is `max_turns` (defaulting to `num_turns`) when `auto_end`
is set and `num_turns` otherwise.  Returns the final states of both bots and
the conversation history. -/
def interact (firstBot otherBot : ChatBot) (numTurns : Nat) (start : String)
    (autoEnd : Bool) (maxTurns : Option Nat) : ChatBot × ChatBot × Transcript :=
  let actualMaxTurns := if autoEnd then maxTurns.getD numTurns else numTurns
  let c := chat firstBot start
  let hist : Transcript := [(c.1.name, start, c.2)]
  interactLoop (actualMaxTurns - 1) 1 c.1 otherBot hist c.2 autoEnd

/-- The alternating speaker-name sequence `a, b, a, b, ...` of length `n`. -/
def altSpeakers (a b : String) : Nat → List String
  | 0 => []
  | n + 1 => a :: altSpeakers b a n

/-- `k` repetitions of the speaker pair `b, a` (one loop iteration appends one
such pair). -/
def speakerPairs (b a : String) : Nat → List String
  | 0 => []
  | k + 1 => b :: a :: speakerPairs b a k

/-- Checks that a transcript consists of `k` loop-iteration pairs produced
while the second bot's provider always raises with message `e`: each pair is a
turn by `secondName` whose response is the substituted error string
`"An error occurred: " ++ e`, followed by a turn by `firstName` whose incoming
message is that same error string. -/
def errPairs (secondName firstName e : String) : Nat → Transcript → Bool
  | 0, [] => true
  | k + 1, (s, _, r1) :: (f, m2, _) :: rest =>
      s == secondName && f == firstName &&
      r1 == ("An error occurred: " ++ e) && m2 == ("An error occurred: " ++ e) &&
      errPairs secondName firstName e k rest
  | _, _ => false

/-- A mock bot whose provider always succeeds with the fixed `reply`. -/
def constBot (nm sys reply : String) : ChatBot :=
  ⟨nm, sys, [], fun _ => Except.ok reply⟩

/-- A mock bot whose provider always raises with message `e`. -/
def failBot (nm sys e : String) : ChatBot :=
  ⟨nm, sys, [], fun _ => Except.error e⟩

/-! ### Basic lemmas about the helpers -/

lemma isInfixL_iff (needle : List Char) : ∀ hay : List Char,
    isInfixL needle hay = true ↔ needle <:+: hay := by
  intro hay
  induction hay with
  | nil =>
    simp only [isInfixL, List.isPrefixOf_iff_prefix, List.prefix_nil, List.infix_nil]
  | cons c rest ih =>
    simp only [isInfixL, Bool.or_eq_true, List.isPrefixOf_iff_prefix, ih,
      List.infix_cons_iff]

lemma containsSub_iff {hay needle : String} :
    containsSub hay needle = true ↔ needle.toList <:+: hay.toList := by
  simp only [containsSub, isInfixL_iff]

lemma toList_lowerStr (s : String) : (lowerStr s).toList = s.toList.map Char.toLower :=
  rfl

/-- Substring containment survives lowering: if `p` occurs in `m`, then
`lowerStr p` occurs in `lowerStr m`. -/
lemma containsSub_lowerStr {m p : String} (h : containsSub m p = true) :
    containsSub (lowerStr m) (lowerStr p) = true := by
  rw [containsSub_iff] at h ⊢
  rw [toList_lowerStr, toList_lowerStr]
  exact h.map Char.toLower

/-- Transfer containment along a contained intermediate string. -/
lemma containsSub_trans {hay mid needle : String}
    (h1 : containsSub hay mid = true) (h2 : containsSub mid needle = true) :
    containsSub hay needle = true := by
  rw [containsSub_iff] at h1 h2 ⊢
  exact h2.trans h1

lemma ite_nonneg_q (c : Prop) [Decidable c] (q : ℚ) (hq : 0 ≤ q) :
    0 ≤ if c then q else 0 := by
  split
  · exact hq
  · exact le_refl 0

lemma minQ_le_right (a b : ℚ) : minQ a b ≤ b := by
  unfold minQ
  split
  · assumption
  · exact le_refl b

lemma le_minQ {c a b : ℚ} (h1 : c ≤ a) (h2 : c ≤ b) : c ≤ minQ a b := by
  unfold minQ
  split
  · exact h1
  · exact h2

lemma minQ_eq_right {a b : ℚ} (h : b ≤ a) : minQ a b = b := by
  unfold minQ
  split
  · exact le_antisymm (by assumption) h
  · rfl

lemma farewellMsgScore_nonneg (ps : List String) (m : String) :
    0 ≤ farewellMsgScore ps m := by
  unfold farewellMsgScore
  refine add_nonneg (add_nonneg (add_nonneg (add_nonneg ?_ ?_) ?_) ?_) ?_
  · positivity
  · exact ite_nonneg_q _ _ (by norm_num)
  · exact ite_nonneg_q _ _ (by norm_num)
  · exact ite_nonneg_q _ _ (by norm_num)
  · exact ite_nonneg_q _ _ (by norm_num)

lemma detectFarewells_nonneg (a : Analyzer) (l : List Turn) :
    0 ≤ detectFarewells a l := by
  unfold detectFarewells
  refine le_minQ ?_ (by norm_num)
  refine List.sum_nonneg ?_
  intro x hx
  obtain ⟨t, _, rfl⟩ := List.mem_map.mp hx
  exact farewellMsgScore_nonneg _ _

lemma detectFarewells_le_one (a : Analyzer) (l : List Turn) :
    detectFarewells a l ≤ 1 :=
  minQ_le_right _ _

lemma metaMsgScore_nonneg (m : String) : 0 ≤ metaMsgScore m := by
  unfold metaMsgScore
  refine add_nonneg (add_nonneg ?_ ?_) ?_ <;>
    exact ite_nonneg_q _ _ (by norm_num)

lemma detectMetaConversation_nonneg (l : List Turn) :
    0 ≤ detectMetaConversation l := by
  unfold detectMetaConversation
  refine le_minQ ?_ (by norm_num)
  refine List.sum_nonneg ?_
  intro x hx
  obtain ⟨t, _, rfl⟩ := List.mem_map.mp hx
  exact metaMsgScore_nonneg _

lemma detectMetaConversation_le_one (l : List Turn) :
    detectMetaConversation l ≤ 1 :=
  minQ_le_right _ _

lemma detectWaitingPattern_nonneg (l : List Turn) :
    0 ≤ detectWaitingPattern l := by
  unfold detectWaitingPattern
  dsimp only
  split
  · norm_num
  · split <;> norm_num

lemma detectWaitingPattern_le_one (l : List Turn) :
    detectWaitingPattern l ≤ 1 := by
  unfold detectWaitingPattern
  dsimp only
  split
  · norm_num
  · split <;> norm_num

lemma jaccard_nonneg (s1 s2 : Finset String) : 0 ≤ jaccard s1 s2 := by
  unfold jaccard
  split
  · exact le_refl 0
  · split
    · positivity
    · exact le_refl 0

lemma jaccard_le_one (s1 s2 : Finset String) : jaccard s1 s2 ≤ 1 := by
  unfold jaccard
  split
  · norm_num
  · split
    · rename_i hcard
      rw [div_le_one (by exact_mod_cast hcard)]
      exact_mod_cast Finset.card_le_card Finset.inter_subset_union
    · norm_num

lemma calculateTextSimilarity_nonneg (t1 t2 : String) :
    0 ≤ calculateTextSimilarity t1 t2 := by
  unfold calculateTextSimilarity
  have h1 := jaccard_nonneg (getNgrams t1 2).toFinset (getNgrams t2 2).toFinset
  have h2 := jaccard_nonneg (getNgrams t1 3).toFinset (getNgrams t2 3).toFinset
  nlinarith

lemma calculateTextSimilarity_le_one (t1 t2 : String) :
    calculateTextSimilarity t1 t2 ≤ 1 := by
  unfold calculateTextSimilarity
  have h1 := jaccard_le_one (getNgrams t1 2).toFinset (getNgrams t2 2).toFinset
  have h2 := jaccard_le_one (getNgrams t1 3).toFinset (getNgrams t2 3).toFinset
  nlinarith

lemma detectResolution_isSome {l : List Turn} (h : l ≠ []) :
    ∃ q, detectResolution l = some q := by
  unfold detectResolution
  cases hl : l.getLast? with
  | none => exact absurd (List.getLast?_eq_none_iff.mp hl) h
  | some t =>
    dsimp only
    split
    · exact ⟨0, rfl⟩
    · exact ⟨_, rfl⟩

lemma detectResolution_bounds {l : List Turn} {q : ℚ}
    (h : detectResolution l = some q) : 0 ≤ q ∧ q ≤ 1 := by
  unfold detectResolution at h
  cases hl : l.getLast? with
  | none => rw [hl] at h; cases h
  | some t =>
    rw [hl] at h
    dsimp only at h
    split at h
    · cases h
      norm_num
    · rw [Option.some.injEq] at h
      subst h
      constructor
      · refine le_minQ ?_ (by norm_num)
        refine add_nonneg (add_nonneg ?_ ?_) ?_
        · positivity
        · exact ite_nonneg_q _ _ (by norm_num)
        · exact ite_nonneg_q _ _ (by norm_num)
      · exact minQ_le_right _ _

lemma detectRepetition_mem (h : Transcript) :
    0 ≤ detectRepetition h ∧ detectRepetition h ≤ 1 := by
  unfold detectRepetition
  dsimp only
  split
  · norm_num
  · split
    · norm_num
    · split
      · rename_i hs
        set S := (pairwise ((lastK 4 h).map (fun t => normalizeText t.2.2))).map
          (fun p => calculateTextSimilarity p.1 p.2) with hSdef
        have hlen : 0 < (S.length : ℚ) := by
          have : S ≠ [] := hs
          have : 0 < S.length := List.length_pos.mpr this
          exact_mod_cast this
        have hsumle : S.sum ≤ (S.length : ℚ) := by
          have := List.sum_le_card_nsmul S 1 ?_
          · simpa using this
          · intro x hx
            obtain ⟨p, _, rfl⟩ := List.mem_map.mp hx
            exact calculateTextSimilarity_le_one _ _
        have havg : S.sum / (S.length : ℚ) ≤ 1 := by
          rw [div_le_one hlen]
          exact hsumle
        split
        · rename_i hgt
          constructor <;> nlinarith
        · norm_num
      · norm_num

lemma detectRepetition_nonneg (h : Transcript) : 0 ≤ detectRepetition h :=
  (detectRepetition_mem h).1

lemma detectRepetition_le_one (h : Transcript) : detectRepetition h ≤ 1 :=
  (detectRepetition_mem h).2

lemma lastK_ne_nil {xs : List α} (k : Nat) (hk : 0 < k) (h : xs ≠ []) :
    lastK k xs ≠ [] := by
  have hx : 0 < xs.length := List.length_pos.mpr h
  have : 0 < (lastK k xs).length := by
    unfold lastK
    rw [List.length_drop]
    omega
  exact List.length_pos.mp this

lemma lastK_append_pair (pre : List α) (a b : α) :
    lastK 2 (pre ++ [a, b]) = [a, b] := by
  unfold lastK
  have hlen : (pre ++ [a, b]).length = pre.length + 2 := by
    simp
  rw [hlen]
  have h2 : pre.length + 2 - 2 = pre.length := by omega
  rw [h2]
  exact List.drop_left pre [a, b]

lemma getLast?_drop {xs : List α} : ∀ {n : Nat}, n < xs.length →
    (xs.drop n).getLast? = xs.getLast? := by
  induction xs with
  | nil => intro n h; simp at h
  | cons x xs ih =>
    intro n h
    cases n with
    | zero => rfl
    | succ m =>
      have hm : m < xs.length := by
        simpa using h
      have hxs : xs ≠ [] := by
        intro hx
        rw [hx] at hm
        simp at hm
      rw [List.drop_succ_cons, ih hm]
      cases xs with
      | nil => exact absurd rfl hxs
      | cons y ys => rw [List.getLast?_cons_cons]

lemma lastK_getLast? {xs : List α} (k : Nat) (hk : 0 < k) :
    (lastK k xs).getLast? = xs.getLast? := by
  unfold lastK
  rcases Nat.eq_zero_or_pos xs.length with hz | hpos
  · rw [List.length_eq_zero.mp hz]
    simp
  · exact getLast?_drop (by omega)

lemma dedup_length_lt_of_not_nodup [DecidableEq α] {l : List α}
    (h : ¬ l.Nodup) : l.dedup.length < l.length := by
  rcases Nat.lt_or_ge l.dedup.length l.length with hlt | hge
  · exact hlt
  · exfalso
    have hle : l.dedup.length ≤ l.length := (List.dedup_sublist l).length_le
    have heq : l.dedup.length = l.length := le_antisymm hle hge
    have : l.dedup = l := (List.dedup_sublist l).eq_of_length heq
    exact h (this ▸ List.nodup_dedup l)

/-- Closed form of `detect_end_signals` past the warm-up guard, given that the
resolution detector returns (does not raise). -/
lemma detectEndSignals_eq (a : Analyzer) (hist : Transcript) (n : Nat)
    (hn : ¬ n < 2) {ress : ℚ} (hres : detectResolution (lastK 2 hist) = some ress) :
    detectEndSignals a hist n =
      some
        (decide (a.endThreshold ≤
            (detectFarewells a (lastK 2 hist) * (3/10) + detectRepetition hist * (2/10)
              + ress * (2/10)
              + detectMetaConversation (if 4 ≤ hist.length then lastK 4 hist else hist) * (2/10)
              + detectWaitingPattern (if 4 ≤ hist.length then lastK 4 hist else hist) * (1/10))),
          detectFarewells a (lastK 2 hist) * (3/10) + detectRepetition hist * (2/10)
            + ress * (2/10)
            + detectMetaConversation (if 4 ≤ hist.length then lastK 4 hist else hist) * (2/10)
            + detectWaitingPattern (if 4 ≤ hist.length then lastK 4 hist else hist) * (1/10),
          determinePrimaryReason (detectFarewells a (lastK 2 hist)) (detectRepetition hist)
            ress (detectMetaConversation (if 4 ≤ hist.length then lastK 4 hist else hist))
            (detectWaitingPattern (if 4 ≤ hist.length then lastK 4 hist else hist))) := by
  unfold detectEndSignals
  rw [if_neg hn]
  dsimp only
  rw [hres]

/-- When the farewell score is at its cap 1 and every other score is ≤ 1,
the primary reason is the farewell category (Python's `max` keeps the first
maximal dict item, and the farewell entry comes first). -/
lemma determinePrimaryReason_farewell_one {r res m w : ℚ}
    (hr : r ≤ 1) (hres : res ≤ 1) (hm : m ≤ 1) (hw : w ≤ 1) :
    determinePrimaryReason 1 r res m w = "Farewell detected" := by
  unfold determinePrimaryReason
  dsimp only [List.foldl]
  rw [if_neg (lt_irrefl (1 : ℚ)), if_neg (not_lt.mpr hr), if_neg (not_lt.mpr hres),
    if_neg (not_lt.mpr hm), if_neg (not_lt.mpr hw),
    if_pos (by norm_num : (3 : ℚ)/10 < 1)]

/-! ### Claim theorems -/

/-- C1: for every non-empty transcript and every current turn, with any
positive end threshold (the default is 0.6), `detect_end_signals` returns a
confidence in [0,1] with `should_end` true exactly when the confidence reaches
the threshold; each of the five detector scores lies in [0,1] and the
combining weights 0.3, 0.2, 0.2, 0.2, 0.1 sum to 1. -/
theorem detectEndSignals_confidence_contract (t : ℚ) (hist : Transcript) (n : Nat)
    (hne : hist ≠ []) (ht : 0 < t) :
    ∃ se conf reason,
      detectEndSignals (mkAnalyzer t) hist n = some (se, conf, reason)
      ∧ 0 ≤ conf ∧ conf ≤ 1
      ∧ (se = true ↔ t ≤ conf)
      ∧ 0 ≤ detectFarewells (mkAnalyzer t) (lastK 2 hist)
      ∧ detectFarewells (mkAnalyzer t) (lastK 2 hist) ≤ 1
      ∧ 0 ≤ detectRepetition hist ∧ detectRepetition hist ≤ 1
      ∧ (∀ q, detectResolution (lastK 2 hist) = some q → 0 ≤ q ∧ q ≤ 1)
      ∧ (∀ ctx : List Turn, 0 ≤ detectMetaConversation ctx ∧ detectMetaConversation ctx ≤ 1)
      ∧ (∀ ctx : List Turn, 0 ≤ detectWaitingPattern ctx ∧ detectWaitingPattern ctx ≤ 1)
      ∧ ((3 : ℚ)/10 + 2/10 + 2/10 + 2/10 + 1/10 = 1) := by
  have hbounds :
      (∀ q, detectResolution (lastK 2 hist) = some q → 0 ≤ q ∧ q ≤ 1)
      ∧ (∀ ctx : List Turn, 0 ≤ detectMetaConversation ctx ∧ detectMetaConversation ctx ≤ 1)
      ∧ (∀ ctx : List Turn, 0 ≤ detectWaitingPattern ctx ∧ detectWaitingPattern ctx ≤ 1) :=
    ⟨fun _ hq => detectResolution_bounds hq,
     fun ctx => ⟨detectMetaConversation_nonneg ctx, detectMetaConversation_le_one ctx⟩,
     fun ctx => ⟨detectWaitingPattern_nonneg ctx, detectWaitingPattern_le_one ctx⟩⟩
  by_cases hn : n < 2
  · refine ⟨false, 0, "Too early in conversation", ?_, le_refl 0, by norm_num, ?_,
      detectFarewells_nonneg _ _, detectFarewells_le_one _ _,
      detectRepetition_nonneg hist, detectRepetition_le_one hist,
      hbounds.1, hbounds.2.1, hbounds.2.2, by norm_num⟩
    · unfold detectEndSignals
      rw [if_pos hn]
    · simp only [Bool.false_eq_true, false_iff, not_le]
      exact ht
  · obtain ⟨ress, hres⟩ := detectResolution_isSome (lastK_ne_nil 2 (by norm_num) hne)
    have hrb := detectResolution_bounds hres
    have hf0 := detectFarewells_nonneg (mkAnalyzer t) (lastK 2 hist)
    have hf1 := detectFarewells_le_one (mkAnalyzer t) (lastK 2 hist)
    have hr0 := detectRepetition_nonneg hist
    have hr1 := detectRepetition_le_one hist
    have hm0 := detectMetaConversation_nonneg (if 4 ≤ hist.length then lastK 4 hist else hist)
    have hm1 := detectMetaConversation_le_one (if 4 ≤ hist.length then lastK 4 hist else hist)
    have hw0 := detectWaitingPattern_nonneg (if 4 ≤ hist.length then lastK 4 hist else hist)
    have hw1 := detectWaitingPattern_le_one (if 4 ≤ hist.length then lastK 4 hist else hist)
    refine ⟨_, _, _, detectEndSignals_eq (mkAnalyzer t) hist n hn hres, ?_, ?_, ?_,
      hf0, hf1, hr0, hr1, hbounds.1, hbounds.2.1, hbounds.2.2, by norm_num⟩
    · nlinarith [hrb.1, hrb.2]
    · nlinarith [hrb.1, hrb.2]
    · simp only [decide_eq_true_eq, mkAnalyzer]

/-- C1 witness. -/
theorem detectEndSignals_confidence_contract_witness :
    ∃ se conf reason,
      detectEndSignals (mkAnalyzer (6/10)) [("A", "", "hello"), ("B", "hello", "hi?")] 2
        = some (se, conf, reason)
      ∧ 0 ≤ conf ∧ conf ≤ 1
      ∧ (se = true ↔ (6 : ℚ)/10 ≤ conf)
      ∧ 0 ≤ detectFarewells (mkAnalyzer (6/10)) (lastK 2 [("A", "", "hello"), ("B", "hello", "hi?")])
      ∧ detectFarewells (mkAnalyzer (6/10)) (lastK 2 [("A", "", "hello"), ("B", "hello", "hi?")]) ≤ 1
      ∧ 0 ≤ detectRepetition [("A", "", "hello"), ("B", "hello", "hi?")]
      ∧ detectRepetition [("A", "", "hello"), ("B", "hello", "hi?")] ≤ 1
      ∧ (∀ q, detectResolution (lastK 2 [("A", "", "hello"), ("B", "hello", "hi?")]) = some q
          → 0 ≤ q ∧ q ≤ 1)
      ∧ (∀ ctx : List Turn, 0 ≤ detectMetaConversation ctx ∧ detectMetaConversation ctx ≤ 1)
      ∧ (∀ ctx : List Turn, 0 ≤ detectWaitingPattern ctx ∧ detectWaitingPattern ctx ≤ 1)
      ∧ ((3 : ℚ)/10 + 2/10 + 2/10 + 2/10 + 1/10 = 1) :=
  detectEndSignals_confidence_contract (6/10) [("A", "", "hello"), ("B", "hello", "hi?")] 2
    (by simp) (by norm_num)

/-- C2: with `current_turn < 2` the analyzer returns `(false, 0.0,
"Too early in conversation")` from the warm-up guard, before any detector
runs (the guard even returns on the empty transcript, on which the
resolution detector would raise). -/
theorem detectEndSignals_warmup (a : Analyzer) (hist : Transcript) (n : Nat)
    (hn : n < 2) :
    detectEndSignals a hist n = some (false, 0, "Too early in conversation") := by
  unfold detectEndSignals
  rw [if_pos hn]

/-- C2 witness (on the empty transcript, where reaching the detectors would
raise instead). -/
theorem detectEndSignals_warmup_witness :
    detectEndSignals (mkAnalyzer (6/10)) [] 1 = some (false, 0, "Too early in conversation") :=
  detectEndSignals_warmup (mkAnalyzer (6/10)) [] 1 (by norm_num)

/-- C5: whenever the transcript's final message contains a question mark, the
resolution detector (invoked by `detect_end_signals` on the last-2 window)
returns exactly 0, whatever resolution phrases, summary indicators or
short-message bonus would otherwise apply. -/
theorem detectResolution_zero_on_question (hist : Transcript) (tr : Turn)
    (hlast : hist.getLast? = some tr)
    (hq : containsSub tr.2.2 "?" = true) :
    detectResolution (lastK 2 hist) = some 0 := by
  have h2 : (lastK 2 hist).getLast? = some tr := by
    rw [lastK_getLast? 2 (by norm_num)]
    exact hlast
  unfold detectResolution
  rw [h2]
  dsimp only
  rw [if_pos hq]

/-- C5 witness: the final message carries a resolution phrase, a summary
indicator and fewer than 20 words, yet the question mark forces 0. -/
theorem detectResolution_zero_on_question_witness :
    detectResolution (lastK 2 [("A", "q", "hope that helps? in summary, that covers it")])
      = some 0 :=
  detectResolution_zero_on_question
    [("A", "q", "hope that helps? in summary, that covers it")]
    ("A", "q", "hope that helps? in summary, that covers it") rfl (by decide)

/-- C8 counterexample: on the empty transcript with `current_turn = 2` the
analyzer does not return a result — `recent_messages[-1]` in
`_detect_resolution` raises `IndexError` (modelled as `none`), so
`detect_end_signals` is not total over all transcript shapes. -/
theorem detectEndSignals_empty_raises :
    detectEndSignals (mkAnalyzer (6/10)) [] 2 = none := by
  decide

/-- C8 amended: `detect_end_signals` always returns a `(bool, float, string)`
triple for every non-empty transcript (empty-string messages included) and,
via the warm-up guard, for every transcript when `current_turn < 2`; only the
empty transcript at `current_turn ≥ 2` raises. -/
theorem detectEndSignals_total_of_nonempty (a : Analyzer) (hist : Transcript) (n : Nat)
    (h : hist ≠ [] ∨ n < 2) :
    ∃ se conf reason, detectEndSignals a hist n = some (se, conf, reason) := by
  by_cases hn : n < 2
  · refine ⟨false, 0, "Too early in conversation", ?_⟩
    unfold detectEndSignals
    rw [if_pos hn]
  · rcases h with hne | hn2
    · obtain ⟨ress, hres⟩ := detectResolution_isSome (lastK_ne_nil 2 (by norm_num) hne)
      exact ⟨_, _, _, detectEndSignals_eq a hist n hn hres⟩
    · exact absurd hn2 hn

/-- C8 amended witness: a single-turn transcript whose message is the empty
string still yields a result at `current_turn = 7`. -/
theorem detectEndSignals_total_of_nonempty_witness :
    ∃ se conf reason,
      detectEndSignals (mkAnalyzer (6/10)) [("A", "", "")] 7 = some (se, conf, reason) :=
  detectEndSignals_total_of_nonempty (mkAnalyzer (6/10)) [("A", "", "")] 7
    (Or.inl (by simp))

/-- C9: `detect_end_signals` is deterministic and stateless.  The state-passing
view of a call returns the analyzer state and the transcript unchanged (the
method body performs no writes), and two analyzers agreeing on the fields set
by `__init__` (`end_threshold` and the phrase list, which the constructor
fixes independently of the threshold) produce identical result triples on
identical `(transcript, current_turn)` arguments. -/
theorem detectEndSignals_stateless (a b : Analyzer) (hist : Transcript) (n : Nat)
    (hth : a.endThreshold = b.endThreshold)
    (hph : a.farewellPhrases = b.farewellPhrases) :
    detectEndSignalsCall a hist n = (a, hist, detectEndSignals a hist n)
    ∧ detectEndSignals a hist n = detectEndSignals b hist n
    ∧ ∀ t1 t2 : ℚ, (mkAnalyzer t1).farewellPhrases = (mkAnalyzer t2).farewellPhrases := by
  have hab : a = b := by
    cases a
    cases b
    simp_all
  subst hab
  exact ⟨rfl, rfl, fun _ _ => rfl⟩

/-- C9 witness. -/
theorem detectEndSignals_stateless_witness :
    detectEndSignalsCall (mkAnalyzer (6/10)) [("A", "", "x")] 2
      = (mkAnalyzer (6/10), [("A", "", "x")], detectEndSignals (mkAnalyzer (6/10)) [("A", "", "x")] 2)
    ∧ detectEndSignals (mkAnalyzer (6/10)) [("A", "", "x")] 2
      = detectEndSignals (mkAnalyzer (6/10)) [("A", "", "x")] 2
    ∧ ∀ t1 t2 : ℚ, (mkAnalyzer t1).farewellPhrases = (mkAnalyzer t2).farewellPhrases :=
  detectEndSignals_stateless (mkAnalyzer (6/10)) (mkAnalyzer (6/10)) [("A", "", "x")] 2 rfl rfl

/-- Any duplicate among the normalized last-4 responses makes the repetition
detector return 1 (the `len(set(...)) < len(...)` branch). -/
lemma detectRepetition_of_dup {hist : Transcript} (h4 : 4 ≤ hist.length)
    (hdup : ¬ ((lastK 4 hist).map (fun t => normalizeText t.2.2)).Nodup) :
    detectRepetition hist = 1 := by
  unfold detectRepetition
  rw [if_neg (not_lt.mpr h4)]
  dsimp only
  rw [if_pos (dedup_length_lt_of_not_nodup hdup)]

/-- C6: when the last four responses are textually identical, the repetition
score is exactly 1.0 and contributes its full weight 0.2 (the `1 * (2/10)`
term) to the combined confidence; any transcript shorter than 4 turns has
repetition score 0. -/
theorem detectRepetition_identical_full_weight (t : ℚ) (hist : Transcript)
    (s : String) (n : Nat) (h4 : 4 ≤ hist.length)
    (hsame : ∀ tr ∈ lastK 4 hist, tr.2.2 = s) (hn : 2 ≤ n) :
    detectRepetition hist = 1
    ∧ (∃ se conf reason ress,
        detectResolution (lastK 2 hist) = some ress
        ∧ detectEndSignals (mkAnalyzer t) hist n = some (se, conf, reason)
        ∧ conf = detectFarewells (mkAnalyzer t) (lastK 2 hist) * (3/10)
            + 1 * (2/10) + ress * (2/10)
            + detectMetaConversation (lastK 4 hist) * (2/10)
            + detectWaitingPattern (lastK 4 hist) * (1/10))
    ∧ (∀ hist2 : Transcript, hist2.length < 4 → detectRepetition hist2 = 0) := by
  have hne : hist ≠ [] := by
    intro h
    rw [h] at h4
    simp at h4
  have hnn : ¬ n < 2 := Nat.not_lt.mpr hn
  have hlen4 : ((lastK 4 hist).map (fun tr => normalizeText tr.2.2)).length = 4 := by
    rw [List.length_map]
    unfold lastK
    rw [List.length_drop]
    omega
  have hall : ∀ x ∈ (lastK 4 hist).map (fun tr => normalizeText tr.2.2),
      x = normalizeText s := by
    intro x hx
    obtain ⟨tr, htr, rfl⟩ := List.mem_map.mp hx
    rw [hsame tr htr]
  have hrep : detectRepetition hist = 1 := by
    apply detectRepetition_of_dup h4
    intro hnd
    have h01 : ((lastK 4 hist).map (fun tr => normalizeText tr.2.2)).get
          ⟨0, by rw [hlen4]; norm_num⟩
        = ((lastK 4 hist).map (fun tr => normalizeText tr.2.2)).get
          ⟨1, by rw [hlen4]; norm_num⟩ := by
      rw [hall _ (List.get_mem _ _ _), hall _ (List.get_mem _ _ _)]
    have hinj := List.nodup_iff_injective_get.mp hnd h01
    simp at hinj
  refine ⟨hrep, ?_, ?_⟩
  · obtain ⟨ress, hres⟩ := detectResolution_isSome (lastK_ne_nil 2 (by norm_num) hne)
    refine ⟨_, _, _, ress, hres, detectEndSignals_eq (mkAnalyzer t) hist n hnn hres, ?_⟩
    rw [if_pos h4, hrep]
  · intro hist2 hlt
    unfold detectRepetition
    rw [if_pos hlt]

/-- C6 witness. -/
theorem detectRepetition_identical_full_weight_witness :
    detectRepetition
        [("A", "", "same msg here"), ("B", "", "same msg here"),
         ("A", "", "same msg here"), ("B", "", "same msg here")] = 1
    ∧ (∃ se conf reason ress,
        detectResolution (lastK 2
            [("A", "", "same msg here"), ("B", "", "same msg here"),
             ("A", "", "same msg here"), ("B", "", "same msg here")]) = some ress
        ∧ detectEndSignals (mkAnalyzer (6/10))
            [("A", "", "same msg here"), ("B", "", "same msg here"),
             ("A", "", "same msg here"), ("B", "", "same msg here")] 2
            = some (se, conf, reason)
        ∧ conf = detectFarewells (mkAnalyzer (6/10)) (lastK 2
              [("A", "", "same msg here"), ("B", "", "same msg here"),
               ("A", "", "same msg here"), ("B", "", "same msg here")]) * (3/10)
            + 1 * (2/10) + ress * (2/10)
            + detectMetaConversation (lastK 4
                [("A", "", "same msg here"), ("B", "", "same msg here"),
                 ("A", "", "same msg here"), ("B", "", "same msg here")]) * (2/10)
            + detectWaitingPattern (lastK 4
                [("A", "", "same msg here"), ("B", "", "same msg here"),
                 ("A", "", "same msg here"), ("B", "", "same msg here")]) * (1/10))
    ∧ (∀ hist2 : Transcript, hist2.length < 4 → detectRepetition hist2 = 0) :=
  detectRepetition_identical_full_weight (6/10)
    [("A", "", "same msg here"), ("B", "", "same msg here"),
     ("A", "", "same msg here"), ("B", "", "same msg here")]
    "same msg here" 2 (by norm_num) (by decide) (by norm_num)

/-- C10: the repetition detector's duplicate check runs on normalized text
(lowercased, ASCII punctuation stripped), so two of the last four responses
that agree after normalization — even when their raw strings differ in case
or punctuation — force a repetition score of exactly 1.0. -/
theorem detectRepetition_normalized_duplicates (hist : Transcript)
    (h4 : 4 ≤ hist.length)
    (i j : Fin ((lastK 4 hist).map (fun tr => normalizeText tr.2.2)).length)
    (hij : i ≠ j)
    (heq : ((lastK 4 hist).map (fun tr => normalizeText tr.2.2)).get i
         = ((lastK 4 hist).map (fun tr => normalizeText tr.2.2)).get j) :
    detectRepetition hist = 1 := by
  apply detectRepetition_of_dup h4
  intro hnd
  exact hij (List.nodup_iff_injective_get.mp hnd heq)

/-- C10 witness: `"Hi There!"` and `"hi, there"` differ in case and
punctuation but normalize to `"hi there"`. -/
theorem detectRepetition_normalized_duplicates_witness :
    detectRepetition
      [("a", "", "Hi There!"), ("b", "", "hi, there"),
       ("a", "", "different one"), ("b", "", "another one")] = 1 :=
  detectRepetition_normalized_duplicates
    [("a", "", "Hi There!"), ("b", "", "hi, there"),
     ("a", "", "different one"), ("b", "", "another one")]
    (by norm_num) ⟨0, by decide⟩ ⟨1, by decide⟩ (by decide) (by decide)

/-- A message containing `"thank you so much, goodbye!"` contains `"goodbye"`
after lowering. -/
lemma goodbye_hit {msg : String}
    (h : containsSub msg "thank you so much, goodbye!" = true) :
    containsSub (lowerStr msg) "goodbye" = true := by
  refine containsSub_trans (containsSub_lowerStr h) ?_
  decide

/-- One farewell-phrase match already contributes 0.5 to the per-message
farewell increment. -/
lemma farewellMsgScore_ge_half {msg : String}
    (h : containsSub msg "thank you so much, goodbye!" = true) :
    1/2 ≤ farewellMsgScore farewellPhrasesList msg := by
  unfold farewellMsgScore
  dsimp only
  have hg : "goodbye" ∈ farewellPhrasesList.filter
      (fun p => containsSub (lowerStr msg) p) :=
    List.mem_filter.mpr ⟨by decide, goodbye_hit h⟩
  have hlen : 0 < (farewellPhrasesList.filter
      (fun p => containsSub (lowerStr msg) p)).length :=
    List.length_pos.mpr (List.ne_nil_of_mem hg)
  have hlenq : (1 : ℚ) ≤ ((farewellPhrasesList.filter
      (fun p => containsSub (lowerStr msg) p)).length : ℚ) := by
    exact_mod_cast hlen
  have e1 := ite_nonneg_q (anyPhrase gratitudePhrases (lowerStr msg) = true)
    ((3 : ℚ)/10) (by norm_num)
  have e2 := ite_nonneg_q (anyPhrase closurePhrases (lowerStr msg) = true)
    ((4 : ℚ)/10) (by norm_num)
  have e3 := ite_nonneg_q (anyPhrase waitingForPhrases (lowerStr msg) = true)
    ((5 : ℚ)/10) (by norm_num)
  have e4 := ite_nonneg_q (anyPhrase unusualStatePhrases (lowerStr msg) = true)
    ((3 : ℚ)/10) (by norm_num)
  linarith

/-- Both last-window messages match a farewell phrase, so the capped farewell
score reaches exactly 1. -/
lemma detectFarewells_pair_one (t : ℚ) (pre : Transcript) (t1 t2 : Turn)
    (h1 : containsSub t1.2.2 "thank you so much, goodbye!" = true)
    (h2 : containsSub t2.2.2 "thank you so much, goodbye!" = true) :
    detectFarewells (mkAnalyzer t) (lastK 2 (pre ++ [t1, t2])) = 1 := by
  rw [lastK_append_pair]
  unfold detectFarewells
  simp only [mkAnalyzer, List.map_cons, List.map_nil, List.sum_cons, List.sum_nil]
  have s1 := farewellMsgScore_ge_half h1
  have s2 := farewellMsgScore_ge_half h2
  rw [minQ_eq_right (by linarith)]

/-- C4 amended: if the last two messages each contain
`"thank you so much, goodbye!"` and `current_turn ≥ 2`, the farewell score is
1.0 (its clamped ceiling) and `detect_end_signals` reports reason
`"Farewell detected"` — but `should_end` need not be true: the farewell
signal alone contributes only 0.3 < 0.6 to the combined score. -/
theorem detectEndSignals_farewell_ceiling (t : ℚ) (pre : Transcript) (t1 t2 : Turn)
    (n : Nat)
    (h1 : containsSub t1.2.2 "thank you so much, goodbye!" = true)
    (h2 : containsSub t2.2.2 "thank you so much, goodbye!" = true)
    (hn : 2 ≤ n) :
    detectFarewells (mkAnalyzer t) (lastK 2 (pre ++ [t1, t2])) = 1
    ∧ ∃ se conf, detectEndSignals (mkAnalyzer t) (pre ++ [t1, t2]) n
        = some (se, conf, "Farewell detected") := by
  have hfw := detectFarewells_pair_one t pre t1 t2 h1 h2
  refine ⟨hfw, ?_⟩
  have hne : pre ++ [t1, t2] ≠ [] := by simp
  obtain ⟨ress, hres⟩ := detectResolution_isSome (lastK_ne_nil 2 (by norm_num) hne)
  have heq := detectEndSignals_eq (mkAnalyzer t) (pre ++ [t1, t2]) n
    (Nat.not_lt.mpr hn) hres
  rw [hfw, determinePrimaryReason_farewell_one (detectRepetition_le_one _)
      (detectResolution_bounds hres).2 (detectMetaConversation_le_one _)
      (detectWaitingPattern_le_one _)] at heq
  exact ⟨_, _, heq⟩

/-- C4 witness for the amended claim. -/
theorem detectEndSignals_farewell_ceiling_witness :
    detectFarewells (mkAnalyzer (6/10))
        (lastK 2 ([] ++ [(("A", "", "thank you so much, goodbye!") : Turn),
          ("B", "", "thank you so much, goodbye!")])) = 1
    ∧ ∃ se conf, detectEndSignals (mkAnalyzer (6/10))
        ([] ++ [(("A", "", "thank you so much, goodbye!") : Turn),
          ("B", "", "thank you so much, goodbye!")]) 2
        = some (se, conf, "Farewell detected") :=
  detectEndSignals_farewell_ceiling (6/10) [] ("A", "", "thank you so much, goodbye!")
    ("B", "", "thank you so much, goodbye!") 2 (by decide) (by decide) (by norm_num)

/-- C4 counterexample: on the two-turn transcript whose messages are exactly
`"thank you so much, goodbye!"`, with the default threshold 0.6, the farewell
score is capped at 1 yet the combined confidence is only 0.34
(= 0.3·1 + 0.2·0.2 from the short-message resolution bonus), so
`should_end` is `false` — the claim's `should_end = true` fails. -/
theorem detectEndSignals_farewell_not_should_end :
    detectEndSignals (mkAnalyzer (6/10))
        [("A", "", "thank you so much, goodbye!"),
         ("B", "", "thank you so much, goodbye!")] 2
      = some (false, 17/50, "Farewell detected") := by
  decide

/-! ### Lemmas about the interaction loop -/

lemma chat_fst_name (b : ChatBot) (m : String) : (chat b m).1.name = b.name := by
  unfold chat
  dsimp only
  split <;> rfl

lemma chat_fst_generate (b : ChatBot) (m : String) :
    (chat b m).1.generate = b.generate := by
  unfold chat
  dsimp only
  split <;> rfl

lemma chat_error {b : ChatBot} {e : String}
    (hb : ∀ msgs, b.generate msgs = Except.error e) (m : String) :
    (chat b m).2 = "An error occurred: " ++ e := by
  unfold chat
  dsimp only
  rw [hb]

lemma speakerPairs_length (b a : String) (k : Nat) :
    (speakerPairs b a k).length = 2 * k := by
  induction k with
  | zero => rfl
  | succ k ih =>
    simp only [speakerPairs, List.length_cons, ih]
    omega

lemma altSpeakers_length (a b : String) (n : Nat) :
    (altSpeakers a b n).length = n := by
  induction n generalizing a b with
  | zero => rfl
  | succ n ih => simp [altSpeakers, ih]

lemma cons_speakerPairs_eq_altSpeakers (a b : String) (k : Nat) :
    a :: speakerPairs b a k = altSpeakers a b (2 * k + 1) := by
  induction k with
  | zero => rfl
  | succ k ih =>
    have h2 : 2 * (k + 1) + 1 = (2 * k + 1) + 2 := by omega
    rw [h2]
    show a :: speakerPairs b a (k + 1) = a :: b :: altSpeakers a b (2 * k + 1)
    rw [← ih]
    rfl

lemma interactLoop_false_speakers (k : Nat) : ∀ (turn : Nat) (fb sb : ChatBot)
    (hist : Transcript) (resp : String),
    ((interactLoop k turn fb sb hist resp false).2.2).map (fun tr => tr.1)
      = hist.map (fun tr => tr.1) ++ speakerPairs sb.name fb.name k := by
  induction k with
  | zero =>
    intro turn fb sb hist resp
    simp [interactLoop, speakerPairs]
  | succ k ih =>
    intro turn fb sb hist resp
    show ((interactLoop (k + 1) turn fb sb hist resp false).2.2).map (fun tr => tr.1)
      = hist.map (fun tr => tr.1) ++ speakerPairs sb.name fb.name (k + 1)
    unfold interactLoop
    simp only [Bool.false_and, Bool.false_eq_true, if_false]
    rw [ih]
    simp [chat_fst_name, speakerPairs]

lemma interactLoop_false_length (k : Nat) (turn : Nat) (fb sb : ChatBot)
    (hist : Transcript) (resp : String) :
    ((interactLoop k turn fb sb hist resp false).2.2).length = hist.length + 2 * k := by
  have hs := congrArg List.length (interactLoop_false_speakers k turn fb sb hist resp)
  rw [List.length_map, List.length_append, List.length_map, speakerPairs_length] at hs
  exact hs

/-- C3 counterexample: with mock agents, `requested_turns = 5` and
`auto_end = false`, `interact` returns 9 transcript entries, not 5 — the
initial exchange appends one turn and each of the `num_turns - 1` loop
iterations appends two (one per bot). -/
theorem interact_five_requested_nine_returned :
    ((interact (constBot "A" "sysA" "hello") (constBot "B" "sysB" "yo")
        5 "Hi" false none).2.2).length = 9
    ∧ ((interact (constBot "A" "sysA" "hello") (constBot "B" "sysB" "yo")
        5 "Hi" false none).2.2).length ≠ 5 := by
  constructor
  · rfl
  · decide

/-- C3 amended: with `auto_end = false`, the transcript returned by
`interact` has exactly `2 * num_turns - 1` entries (for `num_turns ≥ 1`), and
the speakers alternate starting with the first bot. -/
theorem interact_turn_count (fb sb : ChatBot) (n : Nat) (start : String)
    (hn : 1 ≤ n) :
    ((interact fb sb n start false none).2.2).length = 2 * n - 1
    ∧ ((interact fb sb n start false none).2.2).map (fun tr => tr.1)
      = altSpeakers fb.name sb.name (2 * n - 1) := by
  have hspk : ((interact fb sb n start false none).2.2).map (fun tr => tr.1)
      = altSpeakers fb.name sb.name (2 * n - 1) := by
    unfold interact
    dsimp only
    rw [interactLoop_false_speakers]
    simp only [List.map_cons, List.map_nil, chat_fst_name, List.nil_append,
      List.cons_append, Bool.false_eq_true, if_false]
    rw [cons_speakerPairs_eq_altSpeakers]
    have h2 : 2 * (n - 1) + 1 = 2 * n - 1 := by omega
    rw [h2]
  refine ⟨?_, hspk⟩
  have hl := congrArg List.length hspk
  rw [List.length_map, altSpeakers_length] at hl
  exact hl

/-- C3 amended witness at `num_turns = 5`. -/
theorem interact_turn_count_witness :
    ((interact (constBot "A" "sysA" "hello") (constBot "B" "sysB" "yo")
        5 "Hi" false none).2.2).length = 2 * 5 - 1
    ∧ ((interact (constBot "A" "sysA" "hello") (constBot "B" "sysB" "yo")
        5 "Hi" false none).2.2).map (fun tr => tr.1)
      = altSpeakers (constBot "A" "sysA" "hello").name (constBot "B" "sysB" "yo").name
          (2 * 5 - 1) :=
  interact_turn_count (constBot "A" "sysA" "hello") (constBot "B" "sysB" "yo")
    5 "Hi" (by norm_num)

lemma errPairs_length {sn fn e : String} : ∀ (k : Nat) (tail : Transcript),
    errPairs sn fn e k tail = true → tail.length = 2 * k := by
  intro k
  induction k with
  | zero =>
    intro tail h
    cases tail with
    | nil => rfl
    | cons t rest => simp [errPairs] at h
  | succ k ih =>
    intro tail h
    match tail with
    | [] => simp [errPairs] at h
    | [t1] =>
      obtain ⟨s, m, r⟩ := t1
      simp [errPairs] at h
    | (s1, m1, r1) :: (s2, m2, r2) :: rest =>
      simp only [errPairs, Bool.and_eq_true] at h
      have := ih rest h.2
      simp only [List.length_cons, this]
      omega

lemma interactLoop_errPairs {e : String} (k : Nat) : ∀ (turn : Nat)
    (fb sb : ChatBot) (hist : Transcript) (resp : String),
    (∀ msgs, sb.generate msgs = Except.error e) →
    ∃ tail, (interactLoop k turn fb sb hist resp false).2.2 = hist ++ tail
      ∧ errPairs sb.name fb.name e k tail = true := by
  induction k with
  | zero =>
    intro turn fb sb hist resp hsb
    exact ⟨[], by simp [interactLoop], rfl⟩
  | succ k ih =>
    intro turn fb sb hist resp hsb
    show ∃ tail, (interactLoop (k + 1) turn fb sb hist resp false).2.2 = hist ++ tail
      ∧ errPairs sb.name fb.name e (k + 1) tail = true
    unfold interactLoop
    simp only [Bool.false_and, Bool.false_eq_true, if_false]
    obtain ⟨tail, htail, herr⟩ := ih (turn + 1) (chat fb (chat sb resp).2).1
      (chat sb resp).1
      (hist ++ [((chat sb resp).1.name, resp, (chat sb resp).2)]
        ++ [((chat fb (chat sb resp).2).1.name, (chat sb resp).2,
             (chat fb (chat sb resp).2).2)])
      (chat fb (chat sb resp).2).2
      (by rw [chat_fst_generate]; exact hsb)
    refine ⟨((chat sb resp).1.name, resp, (chat sb resp).2)
      :: ((chat fb (chat sb resp).2).1.name, (chat sb resp).2,
          (chat fb (chat sb resp).2).2) :: tail, ?_, ?_⟩
    · rw [htail]
      simp
    · rw [chat_fst_name] at herr
      rw [chat_fst_name] at herr
      simp only [errPairs, chat_fst_name, chat_error hsb, Bool.and_eq_true,
        beq_iff_eq]
      simp [herr]

/-- C7: a failing provider never aborts `interact`: when the second bot's
`generate` raises with message `e` on every call, `chat` substitutes the
inline string `"An error occurred: " ++ e` as that turn's response, the turn
is appended like a normal one (and fed to the first bot as its incoming
message), and the loop still runs to the full turn cap of `2*num_turns - 1`
entries. -/
theorem interact_error_never_raises (fb sb : ChatBot) (e start : String) (n : Nat)
    (hn : 1 ≤ n) (hsb : ∀ msgs, sb.generate msgs = Except.error e) :
    ∃ r tail,
      (interact fb sb n start false none).2.2 = (fb.name, start, r) :: tail
      ∧ errPairs sb.name fb.name e (n - 1) tail = true
      ∧ (interact fb sb n start false none).2.2.length = 2 * n - 1 := by
  unfold interact
  simp only [Bool.false_eq_true, if_false]
  obtain ⟨tail, htail, herr⟩ := interactLoop_errPairs (n - 1) 1 (chat fb start).1 sb
    [((chat fb start).1.name, start, (chat fb start).2)] (chat fb start).2 hsb
  rw [chat_fst_name] at herr
  rw [chat_fst_name] at htail
  refine ⟨(chat fb start).2, tail, ?_, herr, ?_⟩
  · rw [chat_fst_name, htail]
    simp
  · rw [chat_fst_name, htail]
    simp only [List.length_append, List.length_cons, List.length_nil]
    rw [errPairs_length (n - 1) tail herr]
    omega

/-- C7 witness: a bot that always raises `"boom"`, three requested turns. -/
theorem interact_error_never_raises_witness :
    ∃ r tail,
      (interact (constBot "A" "sysA" "hello") (failBot "B" "sysB" "boom")
          3 "Hi" false none).2.2
        = ((constBot "A" "sysA" "hello").name, "Hi", r) :: tail
      ∧ errPairs (failBot "B" "sysB" "boom").name (constBot "A" "sysA" "hello").name
          "boom" (3 - 1) tail = true
      ∧ ((interact (constBot "A" "sysA" "hello") (failBot "B" "sysB" "boom")
          3 "Hi" false none).2.2).length = 2 * 3 - 1 :=
  interact_error_never_raises (constBot "A" "sysA" "hello")
    (failBot "B" "sysB" "boom") "boom" "Hi" 3 (by norm_num) (fun _ => rfl)
